import Mathlib

/-!
Verification development for the OmniSage access-control core.

The definitions below are a shallow embedding of the TypeScript sources:
* `src/rbac/role-hierarchy.ts`   — roles, hierarchy, effective-role resolution
* `src/rbac/permission-engine.ts`— default grants, policy evaluation
* `src/rbac/policy-cache.ts`     — TTL/size-bounded decision cache
* `src/rbac/approval-workflow.ts`— approval state machine
* `src/audit/audit-logger.ts`    — buffered flush (buffer behaviour only)
* `src/audit/pii-redactor.ts`    — regex-based PII redaction

Machine time (`Date.now()` / `new Date()`) is modelled as an explicit
`now : Nat` argument; fallible TypeScript methods (those that `throw`)
return `Except String _`.
-/

set_option maxRecDepth 4096

/-! ## Role hierarchy (`src/rbac/role-hierarchy.ts`) -/

/-- The six role literals of the TS union `Role = OrgRole | WorkspaceRole`. -/
inductive Role where
  | orgOwner
  | orgAdmin
  | orgMember
  | wsAdmin
  | wsMember
  | wsViewer
deriving DecidableEq, Repr

/-- Runtime string value of a role literal. -/
def roleToString : Role → String
  | .orgOwner => "org:owner"
  | .orgAdmin => "org:admin"
  | .orgMember => "org:member"
  | .wsAdmin => "ws:admin"
  | .wsMember => "ws:member"
  | .wsViewer => "ws:viewer"

/-- `role.startsWith('org:')` on the six role literals. -/
def isOrgRole : Role → Bool
  | .orgOwner | .orgAdmin | .orgMember => true
  | _ => false

/-- `getRoleLevel`: ORG_HIERARCHY / WS_HIERARCHY lookup. -/
def getRoleLevel : Role → Nat
  | .orgOwner => 3
  | .orgAdmin => 2
  | .orgMember => 1
  | .wsAdmin => 3
  | .wsMember => 2
  | .wsViewer => 1

/-- `roleIncludes`: cross-family comparison is false, otherwise level order. -/
def roleIncludes (roleA roleB : Role) : Bool :=
  if isOrgRole roleA != isOrgRole roleB then false
  else getRoleLevel roleA ≥ getRoleLevel roleB

/-- `getImpliedRoles`: all roles of the same family with level `≤` the given one. -/
def getImpliedRoles (role : Role) : List Role :=
  if isOrgRole role then
    [Role.orgOwner, Role.orgAdmin, Role.orgMember].filter
      (fun r => getRoleLevel r ≤ getRoleLevel role)
  else
    [Role.wsAdmin, Role.wsMember, Role.wsViewer].filter
      (fun r => getRoleLevel r ≤ getRoleLevel role)

/-- `UserRole` record. -/
structure UserRole where
  userId : String
  role : Role
  scope : String
  grantedAt : Nat
  grantedBy : String
deriving DecidableEq, Repr

/-- `getHighestRole`: maximum-level grant whose scope matches or is `'*'`.
The TS `reduce` with a `null` seed keeps the earlier role on level ties. -/
def getHighestRole (roles : List UserRole) (scope : String) : Option Role :=
  let applicableRoles := roles.filter (fun r => r.scope = scope || r.scope = "*")
  applicableRoles.foldl
    (fun highest current =>
      match highest with
      | none => some current.role
      | some h =>
          if getRoleLevel current.role > getRoleLevel h then some current.role
          else some h)
    none

/-- `hasRoleOrHigher`. -/
def hasRoleOrHigher (userRoles : List UserRole) (requiredRole : Role)
    (scope : String) : Bool :=
  match getHighestRole userRoles scope with
  | none => false
  | some highest => roleIncludes highest requiredRole

/-- JS `Set.add` (insertion-ordered, no duplicates). -/
def addRole (l : List Role) (r : Role) : List Role :=
  if r ∈ l then l else l ++ [r]

/-- `getEffectiveRoles`: implied org roles, the forced workspace roles for
org owners/admins, then implied roles of grants scoped to `workspaceId`. -/
def getEffectiveRoles (userRoles : List UserRole) (workspaceId : String)
    (orgId : String) : List Role :=
  let roles : List Role := []
  let roles :=
    match getHighestRole userRoles orgId with
    | none => roles
    | some orgRole =>
        let roles := (getImpliedRoles orgRole).foldl addRole roles
        if orgRole = Role.orgOwner ∨ orgRole = Role.orgAdmin then
          addRole (addRole (addRole roles Role.wsAdmin) Role.wsMember) Role.wsViewer
        else roles
  (userRoles.filter (fun r => r.scope = workspaceId)).foldl
    (fun acc ur => (getImpliedRoles ur.role).foldl addRole acc) roles

/-! ## Permission model (`src/rbac/index.ts`) -/

/-- The seven concrete resource kinds of the TS `ResourceType` union. -/
inductive RType where
  | workspace | agent | memory | integration | audit | user | tool
deriving DecidableEq, Repr

/-- The five concrete action kinds of the TS `ActionType` union. -/
inductive AType where
  | create | read | update | delete | execute
deriving DecidableEq, Repr

def rtypeToString : RType → String
  | .workspace => "workspace"
  | .agent => "agent"
  | .memory => "memory"
  | .integration => "integration"
  | .audit => "audit"
  | .user => "user"
  | .tool => "tool"

def atypeToString : AType → String
  | .create => "create"
  | .read => "read"
  | .update => "update"
  | .delete => "delete"
  | .execute => "execute"

/-- A `Permission.resource` value: either a concrete resource or the
`'*' as ResourceType` cast used inside `DEFAULT_PERMISSIONS`. -/
inductive PRes where
  | star
  | res (r : RType)
deriving DecidableEq, Repr

/-- A `Permission.action` value, with the `'*'` cast. -/
inductive PAct where
  | star
  | act (a : AType)
deriving DecidableEq, Repr

/-- `Permission` record (`conditions` is never read by the engine). -/
structure Permission where
  resource : PRes
  action : PAct
  scope : String
deriving DecidableEq, Repr

/-- `AccessDecision` record. -/
structure AccessDecision where
  granted : Bool
  approvalRequired : Bool
  reason : String
  policyId : Option String := none
deriving DecidableEq, Repr

/-- `PolicyRule` record (`alertRecipients` is never read by the engine). -/
structure PolicyRule where
  id : String
  name : String
  description : String
  roles : List String
  permissions : List Permission
  approvalRequired : Bool
deriving DecidableEq, Repr

/-- `PermissionContext` record; optional TS fields become `Option`s, and a
missing `policies` array is modelled as the empty list (both skip the
policy branch in `checkPermission`). -/
structure PermissionContext where
  userId : String
  orgId : String
  workspaceId : Option String
  userRoles : List UserRole
  policies : List PolicyRule
deriving Repr

/-! ## Policy cache (`src/rbac/policy-cache.ts`) -/

/-- `CacheEntry`. -/
structure CacheEntry where
  value : AccessDecision
  expiresAt : Nat
deriving DecidableEq, Repr

/-- `PolicyCache` state. The JS `Map` is modelled as an insertion-ordered
association list; `Map.set` on an existing key overwrites in place. -/
structure PolicyCache where
  entries : List (String × CacheEntry)
  ttlMs : Nat
  maxSize : Nat
  hits : Nat
  misses : Nat
deriving Repr

/-- `new PolicyCache(ttlMs, maxSize)` (the TS defaults are 60000 and 10000). -/
def PolicyCache.empty (ttlMs : Nat) (maxSize : Nat) : PolicyCache :=
  { entries := [], ttlMs := ttlMs, maxSize := maxSize, hits := 0, misses := 0 }

/-- A fresh cache with the TS constructor defaults. -/
def emptyPolicyCache : PolicyCache := PolicyCache.empty 60000 10000

/-- `cache.get(key)` at time `now`: miss on absence, lazily delete and miss
on expiry, otherwise count a hit and return the value. -/
def PolicyCache.get (c : PolicyCache) (key : String) (now : Nat) :
    Option AccessDecision × PolicyCache :=
  match c.entries.find? (fun kv => kv.1 = key) with
  | none => (none, { c with misses := c.misses + 1 })
  | some (_, entry) =>
      if now > entry.expiresAt then
        let remaining := c.entries.filter (fun kv => kv.1 ≠ key)
        (none, { c with entries := remaining, misses := c.misses + 1 })
      else
        (some entry.value, { c with hits := c.hits + 1 })

/-- `Map.set` semantics: overwrite the existing key in place, else append. -/
def setEntry : List (String × CacheEntry) → String → CacheEntry →
    List (String × CacheEntry)
  | [], k, e => [(k, e)]
  | (k', e') :: t, k, e =>
      if k' = k then (k, e) :: t else (k', e') :: setEntry t k e

/-- `evictOldest`: delete the first `ceil(maxSize * 0.1)` entries of the
entry list sorted by `expiresAt` ascending (`Math.ceil(maxSize * 0.1)` on
naturals is `(maxSize + 9) / 10`). -/
def PolicyCache.evictOldest (c : PolicyCache) : PolicyCache :=
  let entriesToEvict := (c.maxSize + 9) / 10
  let sorted := c.entries.insertionSort
    (fun a b => a.2.expiresAt ≤ b.2.expiresAt)
  let toDrop := (sorted.take entriesToEvict).map Prod.fst
  { c with entries := c.entries.filter (fun kv => ¬ kv.1 ∈ toDrop) }

/-- `cache.set(key, value)` at time `now`: evict when at capacity, then
insert with `expiresAt = now + ttlMs`. -/
def PolicyCache.set (c : PolicyCache) (key : String) (value : AccessDecision)
    (now : Nat) : PolicyCache :=
  let c := if c.entries.length ≥ c.maxSize then c.evictOldest else c
  { c with entries := setEntry c.entries key { value := value, expiresAt := now + c.ttlMs } }

/-! ## Permission engine (`src/rbac/permission-engine.ts`) -/

/-- The `DEFAULT_PERMISSIONS` role-grant table, transliterated. -/
def DEFAULT_PERMISSIONS : Role → List Permission
  | .orgOwner =>
      [⟨.star, .star, "*"⟩]
  | .orgAdmin =>
      [⟨.res .workspace, .act .create, "*"⟩,
       ⟨.res .workspace, .act .read, "*"⟩,
       ⟨.res .workspace, .act .update, "*"⟩,
       ⟨.res .user, .act .create, "*"⟩,
       ⟨.res .user, .act .read, "*"⟩,
       ⟨.res .user, .act .update, "*"⟩,
       ⟨.res .audit, .act .read, "*"⟩]
  | .orgMember =>
      [⟨.res .workspace, .act .read, "*"⟩]
  | .wsAdmin =>
      [⟨.res .agent, .act .create, "workspace"⟩,
       ⟨.res .agent, .act .read, "workspace"⟩,
       ⟨.res .agent, .act .update, "workspace"⟩,
       ⟨.res .agent, .act .delete, "workspace"⟩,
       ⟨.res .memory, .act .read, "workspace"⟩,
       ⟨.res .memory, .act .update, "workspace"⟩,
       ⟨.res .integration, .act .create, "workspace"⟩,
       ⟨.res .integration, .act .read, "workspace"⟩,
       ⟨.res .integration, .act .update, "workspace"⟩,
       ⟨.res .tool, .act .execute, "workspace"⟩]
  | .wsMember =>
      [⟨.res .agent, .act .read, "workspace"⟩,
       ⟨.res .agent, .act .execute, "workspace"⟩,
       ⟨.res .memory, .act .read, "workspace"⟩,
       ⟨.res .tool, .act .execute, "workspace"⟩]
  | .wsViewer =>
      [⟨.res .agent, .act .read, "workspace"⟩,
       ⟨.res .memory, .act .read, "workspace"⟩]

/-- One iteration of the inner loop of `checkDefaultPermissions`: wildcard
short-circuit, then resource/action/scope match (note the unconditional
`perm.scope === 'workspace'` disjunct from the source). -/
def defaultPermMatches (perm : Permission) (resource : RType) (action : AType)
    (scope : String) : Bool :=
  if perm.resource = PRes.star ∧ perm.action = PAct.star then true
  else
    let resourceMatch := perm.resource = PRes.res resource ∨ perm.resource = PRes.star
    let actionMatch := perm.action = PAct.act action ∨ perm.action = PAct.star
    let scopeMatch := perm.scope = "*" ∨ perm.scope = scope ∨ perm.scope = "workspace"
    resourceMatch ∧ actionMatch ∧ scopeMatch

/-- `checkDefaultPermissions`. -/
def checkDefaultPermissions (roles : List Role) (resource : RType)
    (action : AType) (scope : String) : Bool :=
  roles.any (fun role =>
    (DEFAULT_PERMISSIONS role).any (fun perm =>
      defaultPermMatches perm resource action scope))

/-- Scope match used in `checkPolicies` (no `'workspace'` special case). -/
def policyPermMatches (perm : Permission) (resource : RType) (action : AType)
    (scope : String) : Bool :=
  let resourceMatch := perm.resource = PRes.res resource ∨ perm.resource = PRes.star
  let actionMatch := perm.action = PAct.act action ∨ perm.action = PAct.star
  let scopeMatch := perm.scope = "*" ∨ perm.scope = scope
  resourceMatch ∧ actionMatch ∧ scopeMatch

/-- The policy-scan loop of `checkPolicies`: first rule whose `roles`
intersects the user's roles and whose permission list contains a match
yields the granting decision. -/
def scanPolicies (policies : List PolicyRule) (userRoles : List Role)
    (resource : RType) (action : AType) (scope : String) :
    Option AccessDecision :=
  match policies with
  | [] => none
  | policy :: rest =>
      let roleMatches := policy.roles.any (fun policyRole =>
        userRoles.any (fun r => roleToString r = policyRole))
      if roleMatches ∧
          policy.permissions.any (fun perm =>
            policyPermMatches perm resource action scope) then
        some { granted := true,
               approvalRequired := policy.approvalRequired,
               reason := if policy.approvalRequired then
                   "Granted with approval required"
                 else
                   "Granted by policy: " ++ policy.name,
               policyId := some policy.id }
      else scanPolicies rest userRoles resource action scope

/-- Cache key of `checkPolicies`. -/
def policyCacheKey (userRoles : List Role) (resource : RType) (action : AType)
    (scope : String) : String :=
  String.intercalate "," (userRoles.map roleToString)
    ++ "-" ++ rtypeToString resource ++ "-" ++ atypeToString action ++ "-" ++ scope

/-- `checkPolicies`: cached decision if present, otherwise scan the rules
in order and cache the outcome (grant or the default policy deny). -/
def checkPolicies (cache : PolicyCache) (policies : List PolicyRule)
    (userRoles : List Role) (resource : RType) (action : AType)
    (scope : String) (now : Nat) : AccessDecision × PolicyCache :=
  let cacheKey := policyCacheKey userRoles resource action scope
  match PolicyCache.get cache cacheKey now with
  | (some cached, cache') => (cached, cache')
  | (none, cache') =>
      let decision :=
        match scanPolicies policies userRoles resource action scope with
        | some d => d
        | none =>
            { granted := false, approvalRequired := false,
              reason := "No matching policy found", policyId := none }
      (decision, cache'.set cacheKey decision now)

/-- JS falsy-`||` on an optional string (empty string falls through). -/
def jsOrStr : Option String → String → String
  | some s, y => if s = "" then y else s
  | none, y => y

/-- `context.workspaceId || ''`. -/
def wsOrEmpty (ctx : PermissionContext) : String :=
  match ctx.workspaceId with
  | some s => s
  | none => ""

/-- `targetScope || context.workspaceId || context.orgId`. -/
def resolveScope (ctx : PermissionContext) (targetScope : Option String) : String :=
  jsOrStr targetScope (jsOrStr ctx.workspaceId ctx.orgId)

/-- `checkPermission` (the audit emission is a side effect with no bearing
on the returned decision and is not modelled). -/
def checkPermission (ctx : PermissionContext) (resource : RType)
    (action : AType) (targetScope : Option String) (now : Nat)
    (cache : PolicyCache) : AccessDecision × PolicyCache :=
  let scope := resolveScope ctx targetScope
  let effectiveRoles := getEffectiveRoles ctx.userRoles (wsOrEmpty ctx) ctx.orgId
  if checkDefaultPermissions effectiveRoles resource action scope then
    ({ granted := true, approvalRequired := false,
       reason := "Granted by role permissions", policyId := none }, cache)
  else if ctx.policies ≠ [] then
    checkPolicies cache ctx.policies effectiveRoles resource action scope now
  else
    ({ granted := false, approvalRequired := false,
       reason := "No matching permissions found", policyId := none }, cache)

/-! ## Approval workflow (`src/rbac/approval-workflow.ts`) -/

/-- `ApprovalState` union. -/
inductive ApprovalState where
  | pending | approved | denied | expired | cancelled
deriving DecidableEq, Repr

def approvalStateToString : ApprovalState → String
  | .pending => "pending"
  | .approved => "approved"
  | .denied => "denied"
  | .expired => "expired"
  | .cancelled => "cancelled"

/-- `ApprovalType` union. -/
inductive ApprovalType where
  | single | majority | unanimous | sequential
deriving DecidableEq, Repr

/-- `ApprovalAction` record. -/
structure ApprovalAction where
  approverId : String
  action : Bool  -- `true` is `'approve'`, `false` is `'deny'`
  timestamp : Nat
  comment : Option String
deriving DecidableEq, Repr

/-- `ApprovalRequest` record. -/
structure ApprovalRequest where
  id : String
  userId : String
  orgId : String
  workspaceId : Option String
  resource : RType
  action : AType
  scope : String
  type : ApprovalType
  approvers : List String
  requiredApprovals : Nat
  state : ApprovalState
  createdAt : Nat
  expiresAt : Nat
  approvals : List ApprovalAction
  reason : Option String := none
  alertSent : Option Bool := none
  completedAt : Option Nat := none
deriving DecidableEq, Repr

namespace ApprovalWorkflow

/-- `updateState`: recompute the state from the approval chain according to
the workflow type.  `remaining` counts approvers that have not acted at all
(`request.approvers.length - request.approvals.length` in the source). -/
def updateState (request : ApprovalRequest) (now : Nat) : ApprovalRequest :=
  let approvals := request.approvals.filter (fun a => a.action = true)
  let denials := request.approvals.filter (fun a => a.action = false)
  match request.type with
  | .single =>
      if approvals.length ≥ 1 then
        { request with state := .approved, completedAt := some now }
      else if denials.length ≥ 1 then
        { request with state := .denied, completedAt := some now }
      else request
  | .majority =>
      let required := request.requiredApprovals
      if approvals.length ≥ required then
        { request with state := .approved, completedAt := some now }
      else
        let remaining := request.approvers.length - request.approvals.length
        if approvals.length + remaining < required then
          { request with state := .denied, completedAt := some now }
        else request
  | .unanimous =>
      if denials.length ≥ 1 then
        { request with state := .denied, completedAt := some now }
      else if approvals.length = request.approvers.length then
        { request with state := .approved, completedAt := some now }
      else request
  | .sequential =>
      if denials.length ≥ 1 then
        { request with state := .denied, completedAt := some now }
      else if ¬ seqInOrder approvals request.approvers then
        { request with state := .denied, completedAt := some now }
      else if approvals.length = request.approvers.length then
        { request with state := .approved, completedAt := some now }
      else request
where
  /-- The index loop `approvals[i].approverId !== request.approvers[i]`:
  position `i` beyond the approver list (JS `undefined`) is a mismatch. -/
  seqInOrder : List ApprovalAction → List String → Bool
    | [], _ => true
    | _ :: _, [] => false
    | a :: as, p :: ps => a.approverId = p && seqInOrder as ps

/-- `processAction`: throws on a non-pending request, short-circuits to
`expired` when past due, throws on an unauthorized or duplicate approver,
otherwise appends the action and recomputes the state. -/
def processAction (request : ApprovalRequest) (approverId : String)
    (action : Bool) (comment : Option String) (now : Nat) :
    Except String ApprovalRequest :=
  if request.state ≠ .pending then
    .error ("Approval request is " ++ approvalStateToString request.state
      ++ ", cannot process action")
  else if now > request.expiresAt then
    .ok { request with state := .expired }
  else if ¬ request.approvers.contains approverId then
    .error "User is not authorized to approve this request"
  else if request.approvals.any (fun a => a.approverId = approverId) then
    .error "User has already acted on this request"
  else
    let newApprovals := request.approvals ++
      [{ approverId := approverId, action := action, timestamp := now,
         comment := comment }]
    .ok (updateState { request with approvals := newApprovals } now)

/-- `cancel`. -/
def cancel (request : ApprovalRequest) (now : Nat) :
    Except String ApprovalRequest :=
  if request.state ≠ .pending then
    .error ("Cannot cancel request in state: "
      ++ approvalStateToString request.state)
  else
    .ok { request with state := .cancelled, completedAt := some now }

/-- `checkExpiration`. -/
def checkExpiration (request : ApprovalRequest) (now : Nat) : ApprovalRequest :=
  if request.state = .pending ∧ now > request.expiresAt then
    { request with state := .expired, completedAt := some now }
  else request

end ApprovalWorkflow

/-! ## Audit logger flush (`src/audit/audit-logger.ts`) -/

/-- The fields of an `AuditEvent` that identify it; the flush logic never
inspects an event, so the remaining payload fields are irrelevant here. -/
structure AuditEvent where
  id : String
  timestamp : Nat
  orgId : String
  action : String
  result : String
deriving DecidableEq, Repr

/-- The logger state visible to `flush`: the in-memory buffer and the
re-entrancy flag. -/
structure AuditLoggerState where
  buffer : List AuditEvent
  flushing : Bool
deriving Repr

/-- `flush()`. `writeAndSync` stands for the sequence of stream writes plus
the final fsync, any of which may raise. The source copies the buffer,
clears it (`this.buffer = []`), then performs the I/O; the `finally` block
resets only the `flushing` flag, so on an I/O error the cleared buffer is
left as-is and the error propagates. -/
def AuditLogger.flush (st : AuditLoggerState)
    (writeAndSync : List AuditEvent → Except String Unit) :
    Except String Unit × AuditLoggerState :=
  if st.flushing || st.buffer.isEmpty then
    (.ok (), st)
  else
    let events := st.buffer
    let st := { st with buffer := [], flushing := true }
    match writeAndSync events with
    | .ok () => (.ok (), { st with flushing := false })
    | .error e => (.error e, { st with flushing := false })

/-! ## PII redactor (`src/audit/pii-redactor.ts`)

The redaction patterns are JavaScript regular expressions used with
`String.replace` under the `g` flag.  They are embedded as terms of a
small pattern type `Re` below, evaluated by a backtracking matcher with
JavaScript preference order (alternation left-first, quantifiers greedy),
which on these patterns yields exactly the JS match at each position. -/

/-- Pattern shapes needed by the redaction rules: a character class, a
sequence, an alternation, a greedy option, an exact repetition, a greedy
unbounded repetition, and the word-boundary assertion. -/
inductive Re where
  | cls (p : Char → Bool)
  | seq (a b : Re)
  | alt (a b : Re)
  | opt (a : Re)
  | rep (n : Nat) (a : Re)
  | star (a : Re)
  | wb

/-- JS `\w` (ASCII word character). -/
def isWordChar (c : Char) : Bool :=
  ('a' ≤ c ∧ c ≤ 'z') ∨ ('A' ≤ c ∧ c ≤ 'Z') ∨ ('0' ≤ c ∧ c ≤ '9') ∨ c = '_'

/-- JS `\d`. -/
def isDigitChar (c : Char) : Bool := '0' ≤ c ∧ c ≤ '9'

/-- Whitespace characters recognised by JS `\s` (the ASCII ones; the
redaction inputs contain no exotic Unicode spaces). -/
def isSpaceChar (c : Char) : Bool :=
  c = ' ' ∨ c = '\t' ∨ c = '\n' ∨ c = '\r' ∨ c = '\x0b' ∨ c = '\x0c'

/-- Whether the character at index `i` of `s` is a word character
(out-of-range counts as non-word, as at the ends of the subject). -/
def wordAt (s : List Char) (i : Nat) : Bool :=
  match s.get? i with
  | some c => isWordChar c
  | none => false

/-- The `\b` assertion at position `i`. -/
def atBoundary (s : List Char) (i : Nat) : Bool :=
  let prev := match i with
    | 0 => false
    | j + 1 => wordAt s j
  prev != wordAt s i

/-- Backtracking matcher in continuation style.  `mrun fuel re i k`
matches `re` at position `i` of `s` and passes the end position to `k`;
alternatives are tried in JS preference order, so the first success is
the JS match.  `fuel` only bounds the recursion and is chosen large
enough by the callers below. -/
def mrun (s : List Char) : Nat → Re → Nat → (Nat → Option Nat) → Option Nat
  | 0, _, _, _ => none
  | _ + 1, .cls p, i, k =>
      match s.get? i with
      | some c => if p c then k (i + 1) else none
      | none => none
  | fuel + 1, .seq a b, i, k =>
      mrun s fuel a i (fun j => mrun s fuel b j k)
  | fuel + 1, .alt a b, i, k =>
      (mrun s fuel a i k).orElse (fun _ => mrun s fuel b i k)
  | fuel + 1, .opt a, i, k =>
      (mrun s fuel a i k).orElse (fun _ => k i)
  | _ + 1, .rep 0 _, i, k => k i
  | fuel + 1, .rep (n + 1) a, i, k =>
      mrun s fuel a i (fun j => mrun s fuel (.rep n a) j k)
  | fuel + 1, .star a, i, k =>
      (mrun s fuel a i (fun j =>
        if j > i then mrun s fuel (.star a) j k else none)).orElse
        (fun _ => k i)
  | _ + 1, .wb, i, k =>
      if atBoundary s i then k i else none

/-- Structural size of a pattern, used to bound the matcher fuel. -/
def reWeight : Re → Nat
  | .cls _ => 1
  | .seq a b => reWeight a + reWeight b + 1
  | .alt a b => reWeight a + reWeight b + 1
  | .opt a => reWeight a + 1
  | .rep n a => (n + 1) * (reWeight a + 1) + 1
  | .star a => reWeight a + 1
  | .wb => 1

/-- Fuel sufficient for any match attempt of `re` on `s`. -/
def matchFuel (re : Re) (s : List Char) : Nat :=
  (reWeight re + 2) * (s.length + 2)

/-- First-preference match of `re` at position `i`, returning the end. -/
def tryMatchAt (re : Re) (s : List Char) (i : Nat) : Option Nat :=
  mrun s (matchFuel re s) re i (fun j => some j)

/-- `String.replace` with a `g`-flagged regex over the characters of `s`:
scan left to right, substitute at each match, resume after it (a
zero-width match emits the replacement and advances one character). -/
def replaceScan (re : Re) (repl : List Char) (s : List Char) :
    Nat → Nat → List Char
  | 0, i => s.drop i
  | fuel + 1, i =>
      if i ≥ s.length then []
      else
        match tryMatchAt re s i with
        | some j =>
            if j > i then repl ++ replaceScan re repl s fuel j
            else repl ++ (s.drop i).take 1 ++ replaceScan re repl s fuel (i + 1)
        | none => (s.drop i).take 1 ++ replaceScan re repl s fuel (i + 1)

/-- `value.replace(pattern.regex, pattern.replacement)`. -/
def regexReplace (re : Re) (repl : String) (s : String) : String :=
  String.mk (replaceScan re repl.data s.data (s.data.length + 1) 0)

/-- Whether `re` matches anywhere in `s` (JS `RegExp.test`). -/
def reTest (re : Re) (s : String) : Bool :=
  (List.range (s.data.length + 1)).any (fun i => (tryMatchAt re s.data i).isSome)

/-- Character-class pattern for one of the listed characters. -/
def chOf (l : List Char) : Re := .cls (fun c => l.contains c)

/-- Literal character. -/
def chLit (c : Char) : Re := .cls (fun x => x = c)

/-- Case-insensitive literal character (for `i`-flagged patterns). -/
def chLitCI (c : Char) : Re := .cls (fun x => x.toLower = c.toLower)

/-- Case-insensitive literal word. -/
def litCI (w : String) : Re :=
  match w.data with
  | [] => .rep 0 .wb
  | c :: cs => cs.foldl (fun acc x => .seq acc (chLitCI x)) (chLitCI c)

/-- `X+` as `X X*`. -/
def rePlus (a : Re) : Re := .seq a (.star a)

def reDigit : Re := .cls isDigitChar
def reWord : Re := .cls isWordChar

/-- `API_KEY` pattern `\b(?:sk|pk|key|api|token)_[a-zA-Z0-9_]{16,}\b` (`gi`). -/
def reApiKey : Re :=
  .seq .wb (.seq
    (.alt (litCI "sk") (.alt (litCI "pk") (.alt (litCI "key")
      (.alt (litCI "api") (litCI "token")))))
    (.seq (chLitCI '_')
      (.seq (.rep 16 reWord) (.seq (.star reWord) .wb))))

/-- `SSN` pattern `\b\d{3}-\d{2}-\d{4}\b`. -/
def reSSN : Re :=
  .seq .wb (.seq (.rep 3 reDigit) (.seq (chLit '-')
    (.seq (.rep 2 reDigit) (.seq (chLit '-') (.seq (.rep 4 reDigit) .wb)))))

/-- `SSN_NO_DASHES` pattern `\b\d{9}\b`. -/
def reSSN9 : Re := .seq .wb (.seq (.rep 9 reDigit) .wb)

/-- `CREDIT_CARD` pattern `\b(?:\d{4}[-\s]?){3}\d{4}\b`. -/
def reCreditCard : Re :=
  let sep := .cls (fun c => c = '-' ∨ isSpaceChar c)
  .seq .wb (.seq (.rep 3 (.seq (.rep 4 reDigit) (.opt sep)))
    (.seq (.rep 4 reDigit) .wb))

/-- `EMAIL` pattern `\b[A-Za-z0-9._%+-]+@[A-Za-z0-9.-]+\.[A-Z|a-z]{2,}\b`
(the last class contains a literal `|`). -/
def reEmail : Re :=
  let localC := Re.cls (fun c =>
    ('a' ≤ c ∧ c ≤ 'z') ∨ ('A' ≤ c ∧ c ≤ 'Z') ∨ ('0' ≤ c ∧ c ≤ '9') ∨
      c = '.' ∨ c = '_' ∨ c = '%' ∨ c = '+' ∨ c = '-')
  let domC := Re.cls (fun c =>
    ('a' ≤ c ∧ c ≤ 'z') ∨ ('A' ≤ c ∧ c ≤ 'Z') ∨ ('0' ≤ c ∧ c ≤ '9') ∨
      c = '.' ∨ c = '-')
  let tldC := Re.cls (fun c => ('a' ≤ c ∧ c ≤ 'z') ∨ ('A' ≤ c ∧ c ≤ 'Z') ∨ c = '|')
  .seq .wb (.seq (rePlus localC) (.seq (chLit '@') (.seq (rePlus domC)
    (.seq (chLit '.') (.seq (.rep 2 tldC) (.seq (.star tldC) .wb))))))

/-- `PHONE` pattern `(?:\+?1[-.\s]?)?\(?\d{3}\)?[-.\s]?\d{3}[-.\s]?\d{4}\b`. -/
def rePhone : Re :=
  let sep := chOf ['-', '.'] |>.alt (.cls isSpaceChar)
  .seq (.opt (.seq (.opt (chLit '+')) (.seq (chLit '1') (.opt sep))))
    (.seq (.opt (chLit '(')) (.seq (.rep 3 reDigit) (.seq (.opt (chLit ')'))
      (.seq (.opt sep) (.seq (.rep 3 reDigit)
        (.seq (.opt sep) (.seq (.rep 4 reDigit) .wb)))))))

/-- `DEFAULT_REDACTION_PATTERNS`, in source order. -/
def DEFAULT_REDACTION_PATTERNS : List (String × Re × String) :=
  [("API_KEY", reApiKey, "[API_KEY_REDACTED]"),
   ("SSN", reSSN, "***-**-****"),
   ("SSN_NO_DASHES", reSSN9, "*********"),
   ("CREDIT_CARD", reCreditCard, "****-****-****-****"),
   ("EMAIL", reEmail, "[EMAIL_REDACTED]"),
   ("PHONE", rePhone, "[PHONE_REDACTED]")]

/-- `redactString`: apply the patterns in order. -/
def redactString (value : String) : String :=
  DEFAULT_REDACTION_PATTERNS.foldl
    (fun acc p => regexReplace p.2.1 p.2.2 acc) value

/-- The seven `isSensitiveKey` patterns (all `i`-flagged). -/
def sensitiveKeyPatterns : List Re :=
  [litCI "password",
   litCI "secret",
   litCI "token",
   .seq (litCI "api") (.seq (.opt (chOf ['_', '-'])) (litCI "key")),
   litCI "auth",
   litCI "credential",
   .seq (litCI "private") (.seq (.opt (chOf ['_', '-'])) (litCI "key"))]

/-- `isSensitiveKey`. -/
def isSensitiveKey (key : String) : Bool :=
  sensitiveKeyPatterns.any (fun re => reTest re key)

/-- JSON-like runtime values passed to `redactObject`. -/
inductive JVal where
  | null
  | bool (b : Bool)
  | num (n : Int)
  | str (s : String)
  | arr (items : List JVal)
  | obj (fields : List (String × JVal))

mutual

/-- `redactObject`: strings are redacted, numbers/booleans/null pass
through, arrays recurse, and object entries under a sensitive key are
replaced wholly by `'[REDACTED]'` without descending into the value. -/
def redactObject : JVal → JVal
  | .null => .null
  | .str s => .str (redactString s)
  | .num n => .num n
  | .bool b => .bool b
  | .arr items => .arr (redactArr items)
  | .obj fields => .obj (redactFields fields)

/-- `obj.map((item) => this.redactObject(item))` over an array. -/
def redactArr : List JVal → List JVal
  | [] => []
  | v :: t => redactObject v :: redactArr t

/-- The `Object.entries` loop of `redactObject`. -/
def redactFields : List (String × JVal) → List (String × JVal)
  | [] => []
  | (k, v) :: t =>
      (if isSensitiveKey k then (k, JVal.str "[REDACTED]")
       else (k, redactObject v)) :: redactFields t

end

/-! ## Decision invariant machinery (for the engine claims) -/

/-- The spec invariant on decisions: `granted=false ⇒ approvalRequired=false`. -/
def DecisionInv (d : AccessDecision) : Prop :=
  d.granted = false → d.approvalRequired = false

/-- Every decision stored in the cache satisfies the invariant. -/
def CacheInv (c : PolicyCache) : Prop :=
  ∀ kv ∈ c.entries, DecisionInv kv.2.value

theorem mem_setEntry : ∀ {l : List (String × CacheEntry)} {k : String}
    {e : CacheEntry} {x : String × CacheEntry},
    x ∈ setEntry l k e → x = (k, e) ∨ x ∈ l := by
  intro l k e x hx
  induction l with
  | nil =>
      simp only [setEntry, List.mem_singleton] at hx
      exact Or.inl hx
  | cons hd t ih =>
      obtain ⟨k', e'⟩ := hd
      simp only [setEntry] at hx
      split at hx
      · rcases List.mem_cons.mp hx with h | h
        · exact Or.inl h
        · exact Or.inr (List.mem_cons_of_mem _ h)
      · rcases List.mem_cons.mp hx with h | h
        · exact Or.inr (by simp [h])
        · rcases ih h with h' | h'
          · exact Or.inl h'
          · exact Or.inr (List.mem_cons_of_mem _ h')

theorem cacheInv_evictOldest {c : PolicyCache} (h : CacheInv c) :
    CacheInv c.evictOldest := by
  intro kv hkv
  simp only [PolicyCache.evictOldest, List.mem_filter] at hkv
  exact h kv hkv.1

theorem cacheInv_set {c : PolicyCache} {k : String} {d : AccessDecision}
    {now : Nat} (h : CacheInv c) (hd : DecisionInv d) :
    CacheInv (c.set k d now) := by
  intro kv hkv
  simp only [PolicyCache.set] at hkv
  rcases mem_setEntry hkv with h' | h'
  · subst h'; exact hd
  · by_cases hfull : c.entries.length ≥ c.maxSize
    · simp only [if_pos hfull] at h'
      exact cacheInv_evictOldest h kv h'
    · simp only [if_neg hfull] at h'
      exact h kv h'

theorem cacheInv_get {c : PolicyCache} {key : String} {now : Nat}
    (h : CacheInv c) :
    (∀ d, (PolicyCache.get c key now).1 = some d → DecisionInv d) ∧
      CacheInv (PolicyCache.get c key now).2 := by
  rcases hf : c.entries.find? (fun kv => kv.1 = key) with _ | ⟨k', e⟩
  · refine ⟨fun d hd => ?_, fun kv hkv => ?_⟩
    · simp [PolicyCache.get, hf] at hd
    · simp only [PolicyCache.get, hf] at hkv
      exact h kv hkv
  · have hmem : (k', e) ∈ c.entries := List.mem_of_find?_eq_some hf
    by_cases hexp : now > e.expiresAt
    · refine ⟨fun d hd => ?_, fun kv hkv => ?_⟩
      · simp [PolicyCache.get, hf, hexp] at hd
      · simp only [PolicyCache.get, hf, if_pos hexp, List.mem_filter] at hkv
        exact h kv hkv.1
    · refine ⟨fun d hd => ?_, fun kv hkv => ?_⟩
      · simp only [PolicyCache.get, hf, if_neg hexp, Option.some.injEq] at hd
        exact hd ▸ h (k', e) hmem
      · simp only [PolicyCache.get, hf, if_neg hexp] at hkv
        exact h kv hkv

theorem scanPolicies_inv {policies : List PolicyRule} {userRoles : List Role}
    {resource : RType} {action : AType} {scope : String} {d : AccessDecision}
    (h : scanPolicies policies userRoles resource action scope = some d) :
    d.granted = true := by
  induction policies with
  | nil => simp [scanPolicies] at h
  | cons p rest ih =>
      simp only [scanPolicies] at h
      split at h
      · obtain rfl : _ = d := Option.some.inj h
        rfl
      · exact ih h

theorem checkPolicies_inv {cache : PolicyCache} {policies : List PolicyRule}
    {userRoles : List Role} {resource : RType} {action : AType}
    {scope : String} {now : Nat} (h : CacheInv cache) :
    DecisionInv (checkPolicies cache policies userRoles resource action scope now).1 ∧
      CacheInv (checkPolicies cache policies userRoles resource action scope now).2 := by
  obtain ⟨hval, hafter⟩ :=
    @cacheInv_get cache (policyCacheKey userRoles resource action scope) now h
  rcases hg : PolicyCache.get cache (policyCacheKey userRoles resource action scope) now
    with ⟨res, cache'⟩
  rw [hg] at hval hafter
  rcases res with _ | d
  · rcases hs : scanPolicies policies userRoles resource action scope with _ | d'
    · simp only [checkPolicies, hg, hs]
      exact ⟨fun _ => rfl, cacheInv_set hafter (fun _ => rfl)⟩
    · have hd' : DecisionInv d' := fun hfalse => by
        rw [scanPolicies_inv hs] at hfalse; cases hfalse
      simp only [checkPolicies, hg, hs]
      exact ⟨hd', cacheInv_set hafter hd'⟩
  · simp only [checkPolicies, hg]
    exact ⟨hval d rfl, hafter⟩

/-! ## Claim C1 -/

/-- C1: whenever the default role-grant table matches the caller's
effective roles for the resolved scope, `checkPermission` answers
`granted=true, approvalRequired=false`, whatever custom policies the
context carries and whatever the cache holds — custom rules can only add
grants, never reduce or override a built-in grant. -/
theorem C1_default_grants_dominate_policies
    (ctx : PermissionContext) (resource : RType) (action : AType)
    (targetScope : Option String) (now : Nat) (cache : PolicyCache)
    (h : checkDefaultPermissions
        (getEffectiveRoles ctx.userRoles (wsOrEmpty ctx) ctx.orgId)
        resource action (resolveScope ctx targetScope) = true) :
    (checkPermission ctx resource action targetScope now cache).1.granted = true ∧
      (checkPermission ctx resource action targetScope now cache).1.approvalRequired
        = false := by
  simp [checkPermission, h]

/-- An `org:owner` context carrying a custom policy rule that, were it
consulted, would demand approval for everything. -/
def ctxOwnerWithRestrictivePolicy : PermissionContext :=
  { userId := "u1", orgId := "org1", workspaceId := some "ws1",
    userRoles := [{ userId := "u1", role := .orgOwner, scope := "org1",
                    grantedAt := 0, grantedBy := "system" }],
    policies := [{ id := "p1", name := "restrict", description := "",
                   roles := ["org:owner"],
                   permissions := [⟨.star, .star, "*"⟩],
                   approvalRequired := true }] }

/-- Witness for C1 at a concrete input: the default `org:owner` wildcard
grant fires and the restrictive custom policy is ignored. -/
theorem C1_default_grants_dominate_policies_witness :
    checkDefaultPermissions
        (getEffectiveRoles ctxOwnerWithRestrictivePolicy.userRoles
          (wsOrEmpty ctxOwnerWithRestrictivePolicy)
          ctxOwnerWithRestrictivePolicy.orgId)
        RType.tool AType.execute
        (resolveScope ctxOwnerWithRestrictivePolicy (some "ws1")) = true ∧
      (checkPermission ctxOwnerWithRestrictivePolicy RType.tool AType.execute
          (some "ws1") 0 emptyPolicyCache).1.granted = true ∧
      (checkPermission ctxOwnerWithRestrictivePolicy RType.tool AType.execute
          (some "ws1") 0 emptyPolicyCache).1.approvalRequired = false :=
  ⟨by decide,
   C1_default_grants_dominate_policies ctxOwnerWithRestrictivePolicy
     RType.tool AType.execute (some "ws1") 0 emptyPolicyCache (by decide)⟩

/-! ## Claim C2 -/

/-- A user whose only grant is `ws:viewer` in workspace `ws1`, evaluated
in a context whose current workspace is `ws1`. -/
def ctxViewerWs1 : PermissionContext :=
  { userId := "u1", orgId := "org1", workspaceId := some "ws1",
    userRoles := [{ userId := "u1", role := .wsViewer, scope := "ws1",
                    grantedAt := 0, grantedBy := "admin" }],
    policies := [] }

/-- C2 talks about default grants whose `scope` field is the literal
`'workspace'`; the claim says such a grant must not fire for an explicit
target scope that is neither the current workspace nor `'*'`.  In the
source, `checkDefaultPermissions` accepts `perm.scope === 'workspace'`
unconditionally, so the viewer's `agent`/`read` grant fires for the
foreign scope `ws2` and access is granted — the code contradicts the
spec's stated meaning of the `'workspace'` scope ("the current
workspace"). -/
theorem C2_workspace_scope_grant_leaks_to_foreign_scope :
    (checkPermission ctxViewerWs1 RType.agent AType.read (some "ws2") 0
        emptyPolicyCache).1 =
      { granted := true, approvalRequired := false,
        reason := "Granted by role permissions", policyId := none } ∧
      ctxViewerWs1.workspaceId = some "ws1" ∧
      ("ws2" : String) ≠ "ws1" ∧ ("ws2" : String) ≠ "*" := by
  refine ⟨by decide, rfl, by decide, by decide⟩

/-! ## Claim C4 -/

/-- C4: every decision `checkPermission` produces satisfies
`granted=false ⇒ approvalRequired=false`, and the cache keeps satisfying
the same invariant, provided every decision already cached satisfies it
(which holds inductively, since only these decisions are ever stored). -/
theorem C4_granted_false_implies_no_approval
    (ctx : PermissionContext) (resource : RType) (action : AType)
    (targetScope : Option String) (now : Nat) (cache : PolicyCache)
    (h : CacheInv cache) :
    DecisionInv (checkPermission ctx resource action targetScope now cache).1 ∧
      CacheInv (checkPermission ctx resource action targetScope now cache).2 := by
  by_cases hdp : checkDefaultPermissions
      (getEffectiveRoles ctx.userRoles (wsOrEmpty ctx) ctx.orgId)
      resource action (resolveScope ctx targetScope) = true
  · simp only [checkPermission, hdp, if_true]
    exact ⟨fun hfalse => by simp at hfalse, h⟩
  · by_cases hpol : ctx.policies = []
    · simp [checkPermission, hdp, hpol]
      exact ⟨fun _ => rfl, h⟩
    · simp [checkPermission, hdp, hpol]
      exact checkPolicies_inv h

/-- Witness for C4: the empty cache satisfies the cache invariant, and a
default-denied request (a viewer asking to execute a tool with no
policies) yields a decision with `approvalRequired = false`. -/
theorem C4_granted_false_implies_no_approval_witness :
    CacheInv emptyPolicyCache ∧
      DecisionInv (checkPermission ctxViewerWs1 RType.tool AType.execute
        (some "ws1") 0 emptyPolicyCache).1 ∧
      CacheInv (checkPermission ctxViewerWs1 RType.tool AType.execute
        (some "ws1") 0 emptyPolicyCache).2 :=
  ⟨fun kv hkv => by simp [emptyPolicyCache, PolicyCache.empty] at hkv,
   C4_granted_false_implies_no_approval ctxViewerWs1 RType.tool AType.execute
     (some "ws1") 0 emptyPolicyCache
     (fun kv hkv => by simp [emptyPolicyCache, PolicyCache.empty] at hkv)⟩

/-! ## Claim C3 -/

theorem mem_addRole (l : List Role) (r : Role) : r ∈ addRole l r := by
  unfold addRole
  split
  · assumption
  · simp

theorem mem_addRole_of_mem {l : List Role} {x : Role} (r : Role)
    (h : x ∈ l) : x ∈ addRole l r := by
  unfold addRole
  split
  · exact h
  · exact List.mem_append_left _ h

theorem mem_foldl_addRole_of_mem {x : Role} :
    ∀ (l : List Role) (acc : List Role), x ∈ acc → x ∈ l.foldl addRole acc := by
  intro l
  induction l with
  | nil => intro acc h; exact h
  | cons r t ih =>
      intro acc h
      exact ih (addRole acc r) (mem_addRole_of_mem r h)

theorem mem_wsFold_of_mem {x : Role} :
    ∀ (l : List UserRole) (acc : List Role), x ∈ acc →
      x ∈ l.foldl (fun acc ur => (getImpliedRoles ur.role).foldl addRole acc) acc := by
  intro l
  induction l with
  | nil => intro acc h; exact h
  | cons ur t ih =>
      intro acc h
      exact ih _ (mem_foldl_addRole_of_mem _ acc h)

theorem getHighestRole_single (u : UserRole) (o : String) :
    getHighestRole [u] o =
      if u.scope = o ∨ u.scope = "*" then some u.role else none := by
  by_cases h : u.scope = o ∨ u.scope = "*"
  · rw [if_pos h]
    have hb : (decide (u.scope = o) || decide (u.scope = "*")) = true := by
      rcases h with h | h <;> simp [h]
    simp [getHighestRole, List.filter_cons, hb]
  · rw [if_neg h]
    have h1 : ¬ u.scope = o := fun hh => h (Or.inl hh)
    have h2 : ¬ u.scope = "*" := fun hh => h (Or.inr hh)
    simp [getHighestRole, List.filter_cons, h1, h2]

/-- C3: (a) whenever the user's highest org-scoped role is `org:owner` or
`org:admin`, `getEffectiveRoles` contains `ws:admin`, `ws:member` and
`ws:viewer`, for any workspace; (b) for a user whose only grant is
`org:member`, `getEffectiveRoles` contains none of the three workspace
roles, for any workspace/org pair. -/
theorem C3_org_escalation_exact :
    (∀ (userRoles : List UserRole) (workspaceId orgId : String),
      (getHighestRole userRoles orgId = some Role.orgOwner ∨
        getHighestRole userRoles orgId = some Role.orgAdmin) →
      Role.wsAdmin ∈ getEffectiveRoles userRoles workspaceId orgId ∧
      Role.wsMember ∈ getEffectiveRoles userRoles workspaceId orgId ∧
      Role.wsViewer ∈ getEffectiveRoles userRoles workspaceId orgId) ∧
    (∀ (u : UserRole) (workspaceId orgId : String), u.role = Role.orgMember →
      Role.wsAdmin ∉ getEffectiveRoles [u] workspaceId orgId ∧
      Role.wsMember ∉ getEffectiveRoles [u] workspaceId orgId ∧
      Role.wsViewer ∉ getEffectiveRoles [u] workspaceId orgId) := by
  constructor
  · have key : ∀ (userRoles : List UserRole) (workspaceId orgId : String) orgRole,
        getHighestRole userRoles orgId = some orgRole →
        (orgRole = Role.orgOwner ∨ orgRole = Role.orgAdmin) →
        Role.wsAdmin ∈ getEffectiveRoles userRoles workspaceId orgId ∧
        Role.wsMember ∈ getEffectiveRoles userRoles workspaceId orgId ∧
        Role.wsViewer ∈ getEffectiveRoles userRoles workspaceId orgId := by
      intro userRoles workspaceId orgId orgRole hhigh hor
      unfold getEffectiveRoles
      rw [hhigh]
      simp only [if_pos hor]
      refine ⟨mem_wsFold_of_mem _ _ ?_, mem_wsFold_of_mem _ _ ?_,
        mem_wsFold_of_mem _ _ ?_⟩
      · exact mem_addRole_of_mem _ (mem_addRole_of_mem _ (mem_addRole _ _))
      · exact mem_addRole_of_mem _ (mem_addRole _ _)
      · exact mem_addRole _ _
    intro userRoles workspaceId orgId h
    rcases h with h | h
    · exact key _ _ _ _ h (Or.inl rfl)
    · exact key _ _ _ _ h (Or.inr rfl)
  · intro u workspaceId orgId hu
    unfold getEffectiveRoles
    by_cases hA : u.scope = orgId ∨ u.scope = "*"
    · rw [getHighestRole_single, hu, if_pos hA]
      by_cases hB : u.scope = workspaceId <;>
        simp [hB, hu, List.filter_cons, getImpliedRoles, getRoleLevel,
          isOrgRole, addRole]
    · rw [getHighestRole_single, hu, if_neg hA]
      by_cases hB : u.scope = workspaceId <;>
        simp [hB, hu, List.filter_cons, getImpliedRoles, getRoleLevel,
          isOrgRole, addRole]

/-- An `org:owner` grant and an `org:member` grant on the same org. -/
def ownerGrant : UserRole :=
  { userId := "u", role := .orgOwner, scope := "org1", grantedAt := 0,
    grantedBy := "system" }

def memberGrant : UserRole :=
  { userId := "u", role := .orgMember, scope := "org1", grantedAt := 0,
    grantedBy := "system" }

/-- Witness for C3 at concrete inputs: an `org:owner` grant yields
`ws:admin` for an unrelated workspace, an `org:member`-only grant does
not. -/
theorem C3_org_escalation_exact_witness :
    getHighestRole [ownerGrant] "org1" = some Role.orgOwner ∧
      Role.wsAdmin ∈ getEffectiveRoles [ownerGrant] "ws9" "org1" ∧
      memberGrant.role = Role.orgMember ∧
      Role.wsAdmin ∉ getEffectiveRoles [memberGrant] "ws9" "org1" :=
  ⟨by decide,
   (C3_org_escalation_exact.1 [ownerGrant] "ws9" "org1" (Or.inl (by decide))).1,
   rfl,
   (C3_org_escalation_exact.2 memberGrant "ws9" "org1" rfl).1⟩

/-! ## Claim C5 -/

/-- Two `processAction` calls in sequence (each may fail). -/
def afterTwoActions (req : ApprovalRequest) (id1 : String) (act1 : Bool)
    (now1 : Nat) (id2 : String) (act2 : Bool) (now2 : Nat) :
    Except String ApprovalRequest :=
  match ApprovalWorkflow.processAction req id1 act1 none now1 with
  | .ok r1 => ApprovalWorkflow.processAction r1 id2 act2 none now2
  | .error e => .error e

/-- The state of a successful workflow step. -/
def exceptState : Except String ApprovalRequest → Option ApprovalState
  | .ok r => some r.state
  | .error _ => none

/-- C5: for any pending, unexpired request with three distinct approvers,
no actions yet and `requiredApprovals = 2`: under `majority`, two
approvals give `approved`, two denials give `denied`, one approval plus
one denial stays `pending`; under `sequential`, an approval from
`approvers[1]` before `approvers[0]` has acted gives `denied`. -/
theorem C5_consensus_outcomes (base : ApprovalRequest) (a b c : String)
    (hab : a ≠ b) (now1 now2 : Nat)
    (hstate : base.state = .pending)
    (happrovers : base.approvers = [a, b, c])
    (happrovals : base.approvals = [])
    (hreq : base.requiredApprovals = 2)
    (hnow1 : now1 ≤ base.expiresAt) (hnow2 : now2 ≤ base.expiresAt) :
    exceptState (afterTwoActions { base with type := .majority }
        a true now1 b true now2) = some .approved ∧
    exceptState (afterTwoActions { base with type := .majority }
        a false now1 b false now2) = some .denied ∧
    exceptState (afterTwoActions { base with type := .majority }
        a true now1 b false now2) = some .pending ∧
    exceptState (ApprovalWorkflow.processAction { base with type := .sequential }
        b true none now1) = some .denied := by
  have hx1 : ¬ now1 > base.expiresAt := by omega
  have hx2 : ¬ now2 > base.expiresAt := by omega
  have hba : ¬ (b = a) := fun h => hab h.symm
  refine ⟨?_, ?_, ?_, ?_⟩
  · simp [afterTwoActions, ApprovalWorkflow.processAction,
      ApprovalWorkflow.updateState, ApprovalWorkflow.updateState.seqInOrder,
      exceptState, hstate, happrovers, happrovals, hreq, hx1, hx2, hab, hba]
  · simp [afterTwoActions, ApprovalWorkflow.processAction,
      ApprovalWorkflow.updateState, ApprovalWorkflow.updateState.seqInOrder,
      exceptState, hstate, happrovers, happrovals, hreq, hx1, hx2, hab, hba]
  · simp [afterTwoActions, ApprovalWorkflow.processAction,
      ApprovalWorkflow.updateState, ApprovalWorkflow.updateState.seqInOrder,
      exceptState, hstate, happrovers, happrovals, hreq, hx1, hx2, hab, hba]
  · simp [ApprovalWorkflow.processAction, ApprovalWorkflow.updateState,
      ApprovalWorkflow.updateState.seqInOrder, exceptState, hstate,
      happrovers, happrovals, hreq, hx1, hba]

/-- A pending majority request with three approvers, no actions yet. -/
def baseReq3 : ApprovalRequest :=
  { id := "r1", userId := "u", orgId := "o", workspaceId := none,
    resource := .tool, action := .execute, scope := "ws1",
    type := .majority, approvers := ["a1", "a2", "a3"],
    requiredApprovals := 2, state := .pending, createdAt := 0,
    expiresAt := 100, approvals := [] }

/-- Witness for C5 at a concrete request: two approvals resolve the
majority workflow to `approved`. -/
theorem C5_consensus_outcomes_witness :
    ("a1" : String) ≠ "a2" ∧ baseReq3.state = .pending ∧
      exceptState (afterTwoActions { baseReq3 with type := .majority }
        "a1" true 1 "a2" true 2) = some .approved :=
  ⟨by decide, rfl,
   (C5_consensus_outcomes baseReq3 "a1" "a2" "a3" (by decide) 1 2 rfl rfl rfl
     rfl (by decide) (by decide)).1⟩

/-! ## Claim C6 -/

/-- A request that is still `pending` but whose `expiresAt` is in the past
at time `1`. -/
def reqPastDue : ApprovalRequest :=
  { id := "r0", userId := "u", orgId := "o", workspaceId := none,
    resource := .tool, action := .execute, scope := "ws1", type := .single,
    approvers := ["a1"], requiredApprovals := 1, state := .pending,
    createdAt := 0, expiresAt := 0, approvals := [] }

/-- C6 as stated is false: a past-due pending request can still be moved
to `cancelled`, because `cancel` checks only the state, never the clock.
At the concrete input `reqPastDue` (pending, expired at any `now ≥ 1`),
`cancel` succeeds and returns the request in state `cancelled`. -/
theorem C6_cancel_beats_expiry_counterexample :
    reqPastDue.state = .pending ∧ (1 : Nat) > reqPastDue.expiresAt ∧
      ApprovalWorkflow.cancel reqPastDue 1 =
        .ok { reqPastDue with state := .cancelled, completedAt := some 1 } := by
  refine ⟨rfl, by decide, rfl⟩

/-- C6 (amended): a pending request whose `expiresAt` is past transitions
to `expired` on the next `checkExpiration` or `processAction`, and no
`processAction` on it can ever yield `approved` or `denied`; only a
direct `cancel` call, which never consults the clock, can still take it
to `cancelled`. -/
theorem C6_expired_request_never_resolves
    (req : ApprovalRequest) (approverId : String) (action : Bool)
    (comment : Option String) (now : Nat)
    (hstate : req.state = .pending) (hexp : now > req.expiresAt) :
    (ApprovalWorkflow.checkExpiration req now).state = .expired ∧
      ApprovalWorkflow.processAction req approverId action comment now =
        .ok { req with state := .expired } ∧
      (∀ r', ApprovalWorkflow.processAction req approverId action comment now
          = .ok r' → r'.state ≠ .approved ∧ r'.state ≠ .denied ∧
            r'.state ≠ .cancelled) := by
  refine ⟨?_, ?_, ?_⟩
  · simp [ApprovalWorkflow.checkExpiration, hstate, hexp]
  · simp [ApprovalWorkflow.processAction, hstate, hexp]
  · intro r' hr'
    simp [ApprovalWorkflow.processAction, hstate, hexp] at hr'
    rw [← hr']
    exact ⟨by simp, by simp, by simp⟩

/-- Witness for the amended C6 at the concrete past-due request. -/
theorem C6_expired_request_never_resolves_witness :
    reqPastDue.state = .pending ∧ (1 : Nat) > reqPastDue.expiresAt ∧
      (ApprovalWorkflow.checkExpiration reqPastDue 1).state = .expired ∧
      ApprovalWorkflow.processAction reqPastDue "a1" true none 1 =
        .ok { reqPastDue with state := .expired } :=
  ⟨rfl, by decide,
   (C6_expired_request_never_resolves reqPastDue "a1" true none 1 rfl
     (by decide)).1,
   (C6_expired_request_never_resolves reqPastDue "a1" true none 1 rfl
     (by decide)).2.1⟩

/-! ## Claim C10 -/

/-- C10: in `processAction` the expiry check precedes the authorization
and duplicate checks, so on a pending past-due request every approver id
— in or out of the approver list, having acted or not — gets back the
request in state `expired` with the approvals list unchanged, and no
error is thrown. -/
theorem C10_expiry_check_precedes_authorization
    (req : ApprovalRequest) (approverId : String) (action : Bool)
    (comment : Option String) (now : Nat)
    (hstate : req.state = .pending) (hexp : now > req.expiresAt) :
    ApprovalWorkflow.processAction req approverId action comment now =
      .ok { req with state := .expired } ∧
      (∀ r', ApprovalWorkflow.processAction req approverId action comment now
          = .ok r' → r'.approvals = req.approvals ∧ r'.state = .expired) := by
  have hmain : ApprovalWorkflow.processAction req approverId action comment now
      = .ok { req with state := .expired } := by
    simp [ApprovalWorkflow.processAction, hstate, hexp]
  refine ⟨hmain, fun r' hr' => ?_⟩
  rw [hmain] at hr'
  obtain rfl : _ = r' := Except.ok.inj hr'
  exact ⟨rfl, rfl⟩

/-- Witness for C10: an approver that is not in the approver list of the
past-due request still gets the `expired` request back, with no error. -/
theorem C10_expiry_check_precedes_authorization_witness :
    reqPastDue.state = .pending ∧ (1 : Nat) > reqPastDue.expiresAt ∧
      ("stranger" : String) ∉ reqPastDue.approvers ∧
      ApprovalWorkflow.processAction reqPastDue "stranger" true none 1 =
        .ok { reqPastDue with state := .expired } :=
  ⟨rfl, by decide, by decide,
   (C10_expiry_check_precedes_authorization reqPastDue "stranger" true none 1
     rfl (by decide)).1⟩

/-! ## Claim C7 -/

/-- A buffered audit event. -/
def bufferedEvent : AuditEvent :=
  { id := "e1", timestamp := 0, orgId := "o", action := "tool.execute",
    result := "success" }

/-- C7 as stated is false on the code: `flush` replaces `this.buffer`
with `[]` before performing the stream writes, and the `finally` block
restores only the `flushing` flag, so when the write (or fsync) raises,
the events that were in the buffer when the flush began are gone — they
cannot be retried on the next timer tick.  Concretely: a one-event
buffer flushed against an I/O sink that raises ends with an empty
buffer and the error propagated. -/
theorem C7_failed_flush_drops_buffered_events :
    AuditLogger.flush { buffer := [bufferedEvent], flushing := false }
        (fun _ => .error "EIO")
      = (.error "EIO", { buffer := [], flushing := false }) ∧
      bufferedEvent ∉
        (AuditLogger.flush { buffer := [bufferedEvent], flushing := false }
          (fun _ => .error "EIO")).2.buffer := by
  exact ⟨rfl, by simp [AuditLogger.flush]⟩

/-! ## Claim C8 -/

theorem setEntry_length_le (l : List (String × CacheEntry)) (k : String)
    (e : CacheEntry) : (setEntry l k e).length ≤ l.length + 1 := by
  induction l with
  | nil => simp [setEntry]
  | cons hd t ih =>
      obtain ⟨k', e'⟩ := hd
      by_cases hk : k' = k
      · simp [setEntry, hk]
      · simp only [setEntry, if_neg hk, List.length_cons]
        omega

theorem length_filter_lt_of_mem_not {α : Type} {l : List α} {p : α → Bool}
    {x : α} (hx : x ∈ l) (hpx : p x = false) :
    (l.filter p).length < l.length := by
  induction l with
  | nil => cases hx
  | cons hd t ih =>
      rcases List.mem_cons.mp hx with rfl | hx'
      · have hle := List.length_filter_le p t
        simp [List.filter_cons, hpx]
        omega
      · by_cases hph : p hd = true
        · simp only [List.filter_cons, hph, if_true, List.length_cons]
          exact Nat.succ_lt_succ (ih hx')
        · have := ih hx'
          simp [List.filter_cons, hph]
          omega

theorem evictOldest_length_lt (c : PolicyCache) (hmax : 1 ≤ c.maxSize)
    (hne : c.entries ≠ []) :
    c.evictOldest.entries.length < c.entries.length := by
  unfold PolicyCache.evictOldest
  have hn : 1 ≤ (c.maxSize + 9) / 10 := by omega
  rcases hs : c.entries.insertionSort (fun a b => a.2.expiresAt ≤ b.2.expiresAt)
    with _ | ⟨hd, tl⟩
  · exfalso
    have := List.perm_insertionSort
      (fun a b : String × CacheEntry => a.2.expiresAt ≤ b.2.expiresAt) c.entries
    rw [hs] at this
    exact hne (List.Perm.nil_eq this).symm
  · have hhd : hd ∈ c.entries := by
      have := List.perm_insertionSort
        (fun a b : String × CacheEntry => a.2.expiresAt ≤ b.2.expiresAt) c.entries
      rw [hs] at this
      exact this.mem_iff.mp (List.mem_cons_self hd tl)
    apply length_filter_lt_of_mem_not hhd
    have hmem : hd.1 ∈ ((hd :: tl).take ((c.maxSize + 9) / 10)).map Prod.fst := by
      rcases hk : (c.maxSize + 9) / 10 with _ | n
      · omega
      · simp [List.take_succ_cons]
    rw [hs]
    simp only [decide_eq_false_iff_not, not_not]
    exact hmem

theorem set_length_le (c : PolicyCache) (k : String) (v : AccessDecision)
    (now : Nat) (hmax : 1 ≤ c.maxSize) (h : c.entries.length ≤ c.maxSize) :
    ((c.set k v now).entries.length ≤ c.maxSize) := by
  unfold PolicyCache.set
  by_cases hfull : c.entries.length ≥ c.maxSize
  · rw [if_pos hfull]
    have hne : c.entries ≠ [] := by
      intro h0
      rw [h0] at hfull
      simp at hfull
      omega
    have h1 := evictOldest_length_lt c hmax hne
    have h2 := setEntry_length_le c.evictOldest.entries k
      { value := v, expiresAt := now + c.evictOldest.ttlMs }
    simp only
    omega
  · rw [if_neg hfull]
    have h2 := setEntry_length_le c.entries k
      { value := v, expiresAt := now + c.ttlMs }
    simp only
    omega

theorem set_maxSize_eq (c : PolicyCache) (k : String) (v : AccessDecision)
    (now : Nat) : (c.set k v now).maxSize = c.maxSize := by
  unfold PolicyCache.set PolicyCache.evictOldest
  split <;> rfl

/-- C8 (amended with `maxSize ≥ 1`): one `set` keeps the size within
`maxSize` whenever it was within before (evicting at least one of the
oldest tenth when at capacity), and hence any sequence of `set`
operations starting from the empty cache — in particular inserting
`N > maxSize` entries — leaves `size ≤ maxSize`. -/
theorem C8_set_respects_maxSize :
    (∀ (c : PolicyCache) (k : String) (v : AccessDecision) (now : Nat),
      1 ≤ c.maxSize → c.entries.length ≤ c.maxSize →
      (c.set k v now).entries.length ≤ c.maxSize ∧
        (c.set k v now).maxSize = c.maxSize) ∧
    (∀ (ttl maxSize : Nat) (ops : List (String × AccessDecision × Nat)),
      1 ≤ maxSize →
      (ops.foldl (fun c op => c.set op.1 op.2.1 op.2.2)
        (PolicyCache.empty ttl maxSize)).entries.length ≤ maxSize) := by
  constructor
  · intro c k v now hmax h
    exact ⟨set_length_le c k v now hmax h, set_maxSize_eq c k v now⟩
  · intro ttl maxSize ops hmax
    have key : ∀ (l : List (String × AccessDecision × Nat)) (c : PolicyCache),
        c.maxSize = maxSize → c.entries.length ≤ maxSize →
        (l.foldl (fun c op => c.set op.1 op.2.1 op.2.2) c).entries.length
          ≤ maxSize := by
      intro l
      induction l with
      | nil => intro c _ h; exact h
      | cons op t ih =>
          intro c hcm h
          apply ih
          · rw [set_maxSize_eq, hcm]
          · rw [← hcm] at h hmax ⊢
            exact set_length_le c op.1 op.2.1 op.2.2 hmax h
    exact key ops (PolicyCache.empty ttl maxSize) rfl (by simp [PolicyCache.empty])

/-- A denied decision used as an arbitrary cached value. -/
def denyR : AccessDecision :=
  { granted := false, approvalRequired := false, reason := "r",
    policyId := none }

/-- Three inserts with distinct keys. -/
def opsC8 : List (String × AccessDecision × Nat) :=
  [("k1", denyR, 0), ("k2", denyR, 1), ("k3", denyR, 2)]

/-- C8 as stated (for every cache configuration) is false at
`maxSize = 0`: the eviction count `ceil(0 * 0.1)` is zero, so a single
`set` on the empty zero-capacity cache leaves one entry — the size has
exceeded `maxSize`. -/
theorem C8_maxSize_zero_counterexample :
    ((PolicyCache.empty 1000 0).set "k" denyR 0).entries.length
      > ((PolicyCache.empty 1000 0).set "k" denyR 0).maxSize := by
  decide

/-- Witness for C8: three inserts into a two-slot cache stay within the
bound. -/
theorem C8_set_respects_maxSize_witness :
    (1 : Nat) ≤ 2 ∧
      (opsC8.foldl (fun c op => c.set op.1 op.2.1 op.2.2)
        (PolicyCache.empty 1000 2)).entries.length ≤ 2 :=
  ⟨by decide, C8_set_respects_maxSize.2 1000 2 opsC8 (by decide)⟩

/-! ## Claim C9 -/

theorem redactFields_sensitive :
    ∀ (fields : List (String × JVal)) (i : Nat) (k : String) (v : JVal),
      fields.get? i = some (k, v) → isSensitiveKey k = true →
      (redactFields fields).get? i = some (k, JVal.str "[REDACTED]") := by
  intro fields
  induction fields with
  | nil => intro i k v h _; simp at h
  | cons kv t ih =>
      intro i k v h hk
      obtain ⟨k', v'⟩ := kv
      rcases i with _ | i
      · obtain ⟨rfl, rfl⟩ : k' = k ∧ v' = v := by
          simpa using h
        simp [redactFields, hk]
      · simp only [List.get?_cons_succ] at h
        simp only [redactFields, List.get?_cons_succ]
        exact ih i k v h hk

theorem isSensitiveKey_of_password {k : String}
    (h : reTest (litCI "password") k = true) : isSensitiveKey k = true := by
  simp only [isSensitiveKey, sensitiveKeyPatterns, List.any_cons, h,
    Bool.true_or]

/-- C9: the SSN `123-45-6789` is masked to `***-**-****`; the email
`john@x.com` becomes `[EMAIL_REDACTED]`; in `redactObject`, every object
field whose key matches the sensitive pattern `password` has its value
replaced wholly by `[REDACTED]` whatever the value was, and non-string
scalars (numbers, booleans, null) pass through unchanged. -/
theorem C9_redaction_behaviour :
    redactString "123-45-6789" = "***-**-****" ∧
    redactString "john@x.com" = "[EMAIL_REDACTED]" ∧
    (∀ (fields : List (String × JVal)) (i : Nat) (k : String) (v : JVal),
      fields.get? i = some (k, v) → reTest (litCI "password") k = true →
      ∃ fields', redactObject (JVal.obj fields) = JVal.obj fields' ∧
        fields'.get? i = some (k, JVal.str "[REDACTED]")) ∧
    (∀ n : Int, redactObject (JVal.num n) = JVal.num n) ∧
    (∀ b : Bool, redactObject (JVal.bool b) = JVal.bool b) ∧
    redactObject JVal.null = JVal.null := by
  refine ⟨by decide, by decide, ?_, ?_, ?_, ?_⟩
  · intro fields i k v h hk
    exact ⟨redactFields fields, by rw [redactObject],
      redactFields_sensitive fields i k v h (isSensitiveKey_of_password hk)⟩
  · intro n; rw [redactObject]
  · intro b; rw [redactObject]
  · rw [redactObject]

/-- Witness for C9: a field literally named `password` holding a number
is replaced by the marker. -/
theorem C9_redaction_behaviour_witness :
    ([("password", JVal.num 5)].get? 0 = some ("password", JVal.num 5)) ∧
      reTest (litCI "password") "password" = true ∧
      ∃ fields', redactObject (JVal.obj [("password", JVal.num 5)]) =
          JVal.obj fields' ∧
        fields'.get? 0 = some ("password", JVal.str "[REDACTED]") :=
  ⟨rfl, by decide,
   C9_redaction_behaviour.2.2.1 [("password", JVal.num 5)] 0 "password"
     (JVal.num 5) rfl (by decide)⟩
